import Mathlib

/-!
Verification of the voice-to-notes core: the multi-credential rate-limited
dispatch pool (src/engine/ai.py `GeminiClient`, src/app/api_keys.py
`APIKeyManager`), the idempotent processing registry
(src/engine/registry.py `ProcessingRegistry`) and the folder watcher
stability test (src/engine/watcher.py `FolderWatcher._is_stable`).

Times are modelled as `Int` seconds (the code uses `datetime.utcnow()` /
`time.time()`); Python dictionaries keyed by small indices or hashes are
modelled as association lists with at most one binding per key.
-/

set_option maxRecDepth 10000

namespace VoiceToNotes

/-! ## Association-list helpers (model of Python `dict`) -/

/-- Lookup in an association list: first binding for the key, like `d.get(k)`. -/
def alGet {α : Type} [DecidableEq α] {β : Type} : List (α × β) → α → Option β
  | [], _ => none
  | (a, b) :: t, k => if a = k then some b else alGet t k

/-- Update/insert, like `d[k] = v`: replaces the first binding in place,
appends when the key is absent (Python dicts keep insertion order). -/
def alSet {α : Type} [DecidableEq α] {β : Type} : List (α × β) → α → β → List (α × β)
  | [], k, v => [(k, v)]
  | (a, b) :: t, k, v => if a = k then (k, v) :: t else (a, b) :: alSet t k v

/-- Removal, like `d.pop(k, None)` / `del d[k]`. -/
def alErase {α : Type} [DecidableEq α] {β : Type} : List (α × β) → α → List (α × β)
  | [], _ => []
  | (a, b) :: t, k => if a = k then alErase t k else (a, b) :: alErase t k

theorem alGet_alSet_self {α : Type} [DecidableEq α] {β : Type}
    (l : List (α × β)) (k : α) (v : β) : alGet (alSet l k v) k = some v := by
  induction l with
  | nil => simp [alGet, alSet]
  | cons p t ih =>
    by_cases h : p.1 = k
    · simp [alSet, alGet, h]
    · simp [alSet, alGet, h, ih]

theorem alGet_alSet_ne {α : Type} [DecidableEq α] {β : Type}
    (l : List (α × β)) (k j : α) (v : β) (h : k ≠ j) :
    alGet (alSet l k v) j = alGet l j := by
  induction l with
  | nil => simp [alGet, alSet, h]
  | cons p t ih =>
    by_cases hp : p.1 = k
    · simp [alSet, alGet, hp, h]
    · simp [alSet, alGet, hp, ih]

theorem alGet_alErase_self {α : Type} [DecidableEq α] {β : Type}
    (l : List (α × β)) (k : α) : alGet (alErase l k) k = none := by
  induction l with
  | nil => simp [alGet, alErase]
  | cons p t ih =>
    by_cases hp : p.1 = k
    · simp [alErase, hp, ih]
    · simp [alErase, alGet, hp, ih]

theorem alGet_alErase_ne {α : Type} [DecidableEq α] {β : Type}
    (l : List (α × β)) (k j : α) (h : k ≠ j) :
    alGet (alErase l k) j = alGet l j := by
  induction l with
  | nil => simp [alErase]
  | cons p t ih =>
    by_cases hp : p.1 = k
    · simp [alErase, alGet, hp, h, ih]
    · simp [alErase, alGet, hp, ih]

/-! ## Error classifier (src/engine/ai.py lines 23-30, 137-151)

`str.lower()` is modelled for the ASCII range, which covers every marker and
every message the classifier compares against. -/

/-- Python substring test `m in s`. -/
def containsSub (s m : List Char) : Bool :=
  (List.range (s.length + 1)).any (fun i => m.isPrefixOf (s.drop i))

/-- ASCII lower-casing of one character, as `str.lower()` acts on ASCII. -/
def asciiLower (c : Char) : Char :=
  if 'A' ≤ c ∧ c ≤ 'Z' then Char.ofNat (c.toNat + 32) else c

/-- `str(e).lower()` on an error message. -/
def lowerStr (s : String) : List Char := s.data.map asciiLower

/-- `.replace(" ", "").replace("_", "")`: drop spaces and underscores. -/
def stripSpacesUnderscores (s : List Char) : List Char :=
  s.filter (fun c => !(c = ' ' || c = '_'))

/-- `_QUOTA_MARKERS` (ai.py line 24). -/
def QUOTA_MARKERS : List (List Char) :=
  ["429".data, "quota".data, "rate limit".data, "resource exhausted".data,
   "too many requests".data]

/-- `_NETWORK_MARKERS` (ai.py line 25). -/
def NETWORK_MARKERS : List (List Char) :=
  ["broken pipe".data, "errno 32".data, "connection".data, "reset".data,
   "timeout".data]

/-- `_DAILY_QUOTA_MARKERS` (ai.py line 26). -/
def DAILY_QUOTA_MARKERS : List (List Char) :=
  ["per_day".data, "perday".data, "daily".data, "quotaexceeded".data,
   "limit: 0".data]

/-- `GeminiClient._is_quota_error` (ai.py lines 137-140). -/
def isQuotaError (msg : String) : Bool :=
  QUOTA_MARKERS.any (fun m => containsSub (lowerStr msg) m)

/-- `GeminiClient._is_daily_quota_error` (ai.py lines 142-146): the message is
lower-cased and stripped of spaces and underscores, the markers are not. -/
def isDailyQuotaError (msg : String) : Bool :=
  DAILY_QUOTA_MARKERS.any
    (fun m => containsSub (stripSpacesUnderscores (lowerStr msg)) m)

/-- `GeminiClient._is_network_error` (ai.py lines 148-151). -/
def isNetworkError (msg : String) : Bool :=
  NETWORK_MARKERS.any (fun m => containsSub (lowerStr msg) m)

/-- The error taxonomy of the spec (section 4.2). -/
inductive ErrorKind
  | transient
  | rateLimited
  | dailyQuotaExhausted
  | fatal
  deriving Repr, DecidableEq

/-- The composite classification the dispatcher applies (ai.py lines 196-206:
quota check first, then network, everything else fatal; the daily refinement
is the check `_handle_rate_limit` performs on a quota error). -/
def classify (msg : String) : ErrorKind :=
  if isQuotaError msg then
    if isDailyQuotaError msg then ErrorKind.dailyQuotaExhausted
    else ErrorKind.rateLimited
  else if isNetworkError msg then ErrorKind.transient
  else ErrorKind.fatal

/-! ## GeminiClient key pool and retry loop (src/engine/ai.py) -/

/-- `RATE_LIMIT_WAIT_SECONDS` (ai.py line 29). -/
def RATE_LIMIT_WAIT_SECONDS : Int := 15

/-- `MAX_429_BEFORE_EXHAUST` (ai.py line 30). -/
def MAX_429_BEFORE_EXHAUST : Nat := 3

/-- The mutable key-pool state of `GeminiClient` (ai.py lines 44-49): number
of keys, round-robin index, exhausted set, cooldown deadlines and consecutive
429 counts per key index. -/
structure GState where
  numKeys : Nat
  keyIndex : Nat
  exhausted : List Nat
  cooldowns : List (Nat × Int)
  counts429 : List (Nat × Nat)
  deriving Repr, DecidableEq

/-- Cooldown expiry sweep at the top of `_get_available_key` (ai.py lines
62-65): drop cooldowns with `until <= now` and the 429 counts of those keys. -/
def clearExpired (st : GState) (now : Int) : GState :=
  let expired := (st.cooldowns.filter (fun p => decide (p.2 ≤ now))).map (·.1)
  { st with
    cooldowns := st.cooldowns.filter (fun p => !(decide (p.2 ≤ now)))
    counts429 := st.counts429.filter (fun p => !(expired.contains p.1)) }

/-- Keys neither exhausted nor in cooldown (ai.py lines 68-71), in index
order. -/
def availableKeys (st : GState) : List Nat :=
  (List.range st.numKeys).filter
    (fun i => !(st.exhausted.contains i) && (alGet st.cooldowns i).isNone)

/-- Non-exhausted keys currently in cooldown with their deadlines (ai.py
lines 79-82), in index order. -/
def cooldownKeys (st : GState) : List (Nat × Int) :=
  (List.range st.numKeys).filterMap
    (fun i => if st.exhausted.contains i then none
              else (alGet st.cooldowns i).map (fun u => (i, u)))

/-- Python `min(l, key=...)` over the second component: the first pair
attaining the minimum. -/
def minBySnd : List (Nat × Int) → Option (Nat × Int)
  | [] => none
  | p :: t =>
    match minBySnd t with
    | none => some p
    | some q => if q.2 < p.2 then some q else some p

/-- Outcome of `_get_available_key`: a key index together with the seconds
the call slept before returning it, or the all-exhausted exception. -/
inductive AcquireOutcome
  | got (idx : Nat) (slept : Int) (st : GState)
  | allExhausted
  deriving Repr, DecidableEq

/-- `GeminiClient._get_available_key` (ai.py lines 53-100): sweep expired
cooldowns; round-robin over available keys; otherwise sleep until the soonest
cooldown expires and hand out that key; otherwise raise. -/
def getAvailableKey (st0 : GState) (now : Int) : AcquireOutcome :=
  let st := clearExpired st0 now
  let available := availableKeys st
  if available.length > 0 then
    let idx := available.getD (st.keyIndex % available.length) 0
    AcquireOutcome.got idx 0 { st with keyIndex := st.keyIndex + 1 }
  else
    match minBySnd (cooldownKeys st) with
    | some p =>
      let wait := p.2 - now
      let slept := if wait > 0 then wait + 1 else 0
      AcquireOutcome.got p.1 slept
        { st with cooldowns := alErase st.cooldowns p.1
                  counts429 := alErase st.counts429 p.1 }
    | none => AcquireOutcome.allExhausted

/-- `GeminiClient._handle_rate_limit` (ai.py lines 102-128). -/
def handleRateLimit (st : GState) (idx : Nat) (errMsg : String) (now : Int) :
    GState :=
  if isDailyQuotaError errMsg then
    { st with exhausted := idx :: st.exhausted
              cooldowns := alErase st.cooldowns idx
              counts429 := alErase st.counts429 idx }
  else
    let c := (alGet st.counts429 idx).getD 0 + 1
    let st1 := { st with counts429 := alSet st.counts429 idx c }
    if MAX_429_BEFORE_EXHAUST ≤ c then
      { st1 with exhausted := idx :: st1.exhausted
                 cooldowns := alErase st1.cooldowns idx }
    else
      { st1 with cooldowns := alSet st1.cooldowns idx
                   (now + RATE_LIMIT_WAIT_SECONDS) }

/-- `self._key_429_counts.pop(key_idx, None)` on a successful call
(ai.py lines 192 and 241). -/
def clearCountOnSuccess (st : GState) (idx : Nat) : GState :=
  { st with counts429 := alErase st.counts429 idx }

/-- Outcome of one invocation of the external AI operation. -/
inductive OpOutcome
  | ok
  | quotaErr (msg : String)
  | networkErr
  | fatalErr
  deriving Repr, DecidableEq

/-- Result of the retry loop shared by `transcribe` and `structure`. -/
inductive DispatchResult
  | success (attemptsUsed : Nat) (st : GState)
  | failedAfterAttempts (st : GState)
  | allKeysExhausted
  | fatalRaised
  deriving Repr, DecidableEq

/-- The bounded retry loop of `GeminiClient.transcribe` (ai.py lines 159-208)
and `GeminiClient.structure` (ai.py lines 216-257): `for attempt in
range(max_retries)` acquires a key, invokes the operation (`op attempt` gives
the outcome of the attempt), and on a quota error calls `_handle_rate_limit`
and continues, on a network error sleeps `min(5 * 2 ** attempt, 30)` and
continues, on any other error re-raises; falling out of the loop raises the
`failed after N attempts` exception.  `continue` moves to the next value of
`attempt`, so `remaining` decreases on every executed iteration. -/
def retryLoopAux (st : GState) (now : Int) (op : Nat → OpOutcome)
    (attempt : Nat) : Nat → DispatchResult
  | 0 => DispatchResult.failedAfterAttempts st
  | r + 1 =>
    match getAvailableKey st now with
    | AcquireOutcome.allExhausted => DispatchResult.allKeysExhausted
    | AcquireOutcome.got idx slept st1 =>
      let now1 := now + slept
      match op attempt with
      | OpOutcome.ok =>
        DispatchResult.success (attempt + 1) (clearCountOnSuccess st1 idx)
      | OpOutcome.quotaErr msg =>
        retryLoopAux (handleRateLimit st1 idx msg now1) now1 op (attempt + 1) r
      | OpOutcome.networkErr =>
        retryLoopAux st1 (now1 + min (5 * 2 ^ attempt) 30) op (attempt + 1) r
      | OpOutcome.fatalErr => DispatchResult.fatalRaised

/-- Entry point of the retry loop with `attempt = 0`. -/
def retryLoop (st : GState) (now : Int) (op : Nat → OpOutcome)
    (maxRetries : Nat) : DispatchResult :=
  retryLoopAux st now op 0 maxRetries

/-- Whether a dispatch result is the `failed after N attempts` exception. -/
def isFailedAfterAttempts : DispatchResult → Bool
  | DispatchResult.failedAfterAttempts _ => true
  | _ => false

/-- Final pool state carried by a terminal dispatch result, when any. -/
def resultFinalState : DispatchResult → Option GState
  | DispatchResult.success _ st => some st
  | DispatchResult.failedAfterAttempts st => some st
  | _ => none

/-- Seconds slept inside `_get_available_key`, when it returns a key. -/
def sleptOf : AcquireOutcome → Option Int
  | AcquireOutcome.got _ slept _ => some slept
  | AcquireOutcome.allExhausted => none

/-! ## APIKeyManager (src/app/api_keys.py) -/

/-- `MAX_REQUESTS_PER_MINUTE` (api_keys.py line 25). -/
def MAX_REQUESTS_PER_MINUTE : Nat := 5

/-- One `APIKey` row as `get_next_available_key` reads it. -/
structure APIKey where
  isActive : Bool
  isExhausted : Bool
  lockedUntil : Option Int
  minuteWindowStart : Option Int
  requestsThisMinute : Nat
  deriving Repr, DecidableEq

instance : Inhabited APIKey :=
  ⟨⟨false, false, none, none, 0⟩⟩

/-- Indexing into the key pool (the pool list is the `api_keys` table in
insertion order; indices produced by `availableFilter` are always in
range, so the default is never reached). -/
def keyAt (pool : List APIKey) (i : Nat) : APIKey :=
  pool.getD i default

/-- `APIKeyManager._get_remaining_capacity` (api_keys.py lines 115-131):
full capacity with no window or an expired (≥ 60 s old) window, else
`max(0, RPM - requests_this_minute)` via truncated subtraction. -/
def remainingCapacity (k : APIKey) (now : Int) : Nat :=
  match k.minuteWindowStart with
  | none => MAX_REQUESTS_PER_MINUTE
  | some ws =>
    if now - ws ≥ 60 then MAX_REQUESTS_PER_MINUTE
    else MAX_REQUESTS_PER_MINUTE - k.requestsThisMinute

/-- The filter of `get_next_available_key` (api_keys.py lines 82-90):
active, not exhausted and with no lock or a lock strictly before `now`;
indices into the pool in insertion order. -/
def availableFilter (pool : List APIKey) (now : Int) : List Nat :=
  (List.range pool.length).filter (fun i =>
    (keyAt pool i).isActive && !(keyAt pool i).isExhausted &&
      (match (keyAt pool i).lockedUntil with
       | none => true
       | some t => decide (t < now)))

/-- Stable descending sort by capacity followed by taking the head
(api_keys.py lines 108-110): the first pair attaining the maximal second
component. -/
def selectMaxBySnd : List (Nat × Nat) → Option (Nat × Nat)
  | [] => none
  | p :: t =>
    match selectMaxBySnd t with
    | none => some p
    | some q => if p.2 < q.2 then some q else some p

/-- `APIKeyManager.get_next_available_key` (api_keys.py lines 69-113),
returning the index of the selected key into the pool list. Both failure
branches return `none` (the code logs different warnings but returns `None`
in both). -/
def getNextAvailableKey (pool : List APIKey) (now : Int) : Option Nat :=
  let avail := availableFilter pool now
  if avail.isEmpty then none
  else
    let caps := avail.filterMap (fun i =>
      if 0 < remainingCapacity (keyAt pool i) now
      then some (i, remainingCapacity (keyAt pool i) now) else none)
    if caps.isEmpty then none
    else (selectMaxBySnd caps).map (·.1)

/-! ## ProcessingRegistry (src/engine/registry.py) -/

/-- `MAX_RETRIES` (registry.py line 21). -/
def MAX_RETRIES : Nat := 5

/-- `RETRY_BACKOFF_MINUTES` (registry.py line 22). -/
def RETRY_BACKOFF_MINUTES : List Nat := [1, 5, 15, 60, 240]

/-- One `processed_files` row, restricted to the columns the claims touch
(the schema of `_init_db`, registry.py lines 40-57; unlisted columns default
to `retry_count = 0`, `last_retry_at = NULL`, `skipped = 0`). -/
structure RegEntry where
  filename : String
  success : Bool
  error : Option String
  retryCount : Nat
  lastRetryAt : Option Int
  skipped : Bool
  deriving Repr, DecidableEq

/-- The registry table: one row per content hash (`file_hash` is UNIQUE). -/
abbrev Registry : Type := List (String × RegEntry)

/-- The reason component of `should_skip` (the code also formats counts and
minutes into the returned string; only the reason kind matters here). -/
inductive SkipReason
  | noSkip
  | alreadyProcessed
  | skippedByUser
  | maxRetriesExceeded
  | backoff
  deriving Repr, DecidableEq

/-- The backoff minutes for a given retry count:
`RETRY_BACKOFF_MINUTES[min(retry_count - 1, len - 1)]`
(registry.py lines 159-160). -/
def backoffMinutes (retryCount : Nat) : Nat :=
  RETRY_BACKOFF_MINUTES.getD (min (retryCount - 1) (RETRY_BACKOFF_MINUTES.length - 1)) 0

/-- `ProcessingRegistry.should_skip` (registry.py lines 128-167); Python's
`if last_retry_at and retry_count > 0` is the `isSome` conjunction, and the
`getD 0` is only reached under `isSome`. -/
def shouldSkip (reg : Registry) (hash : String) (now : Int) :
    Bool × SkipReason :=
  match alGet reg hash with
  | none => (false, SkipReason.noSkip)
  | some e =>
    if e.success then (true, SkipReason.alreadyProcessed)
    else if e.skipped then (true, SkipReason.skippedByUser)
    else if MAX_RETRIES ≤ e.retryCount then (true, SkipReason.maxRetriesExceeded)
    else if e.lastRetryAt.isSome ∧ 0 < e.retryCount then
      if now < e.lastRetryAt.getD 0 + (backoffMinutes e.retryCount : Int) * 60
      then (true, SkipReason.backoff)
      else (false, SkipReason.noSkip)
    else (false, SkipReason.noSkip)

/-- `ProcessingRegistry.record_success` (registry.py lines 169-208):
`INSERT OR REPLACE` writes a whole fresh row with `success = 1` and
`error = NULL`; the columns the statement does not list fall back to their
schema defaults. -/
def recordSuccess (reg : Registry) (hash filename : String) : Registry :=
  alSet reg hash
    { filename := filename, success := true, error := none,
      retryCount := 0, lastRetryAt := none, skipped := false }

/-- `ProcessingRegistry.record_failure` (registry.py lines 210-249):
reads the current retry count, then upserts; `ON CONFLICT` updates only
`processed_at`, `error`, `retry_count` and `last_retry_at`. -/
def recordFailure (reg : Registry) (hash filename err : String) (now : Int) :
    Registry :=
  match alGet reg hash with
  | none =>
    alSet reg hash
      { filename := filename, success := false, error := some err,
        retryCount := 1, lastRetryAt := some now, skipped := false }
  | some e =>
    alSet reg hash
      { e with error := some err, retryCount := e.retryCount + 1,
               lastRetryAt := some now }

/-- `ProcessingRegistry.skip_file` (registry.py lines 319-326): an UPDATE
touching only `skipped`. -/
def skipFile (reg : Registry) (hash : String) : Registry :=
  match alGet reg hash with
  | none => reg
  | some e => alSet reg hash { e with skipped := true }

/-- `ProcessingRegistry.unskip_file` (registry.py lines 328-335): an UPDATE
setting `skipped = 0` and `retry_count = 0`. -/
def unskipFile (reg : Registry) (hash : String) : Registry :=
  match alGet reg hash with
  | none => reg
  | some e => alSet reg hash { e with skipped := false, retryCount := 0 }

/-- The registry mutations other than success recording and deletion. -/
inductive RegOp
  | failure (hash filename err : String) (now : Int)
  | skip (hash : String)
  | unskip (hash : String)

/-- Apply one registry operation. -/
def applyOp (op : RegOp) (reg : Registry) : Registry :=
  match op with
  | RegOp.failure hash filename err now => recordFailure reg hash filename err now
  | RegOp.skip hash => skipFile reg hash
  | RegOp.unskip hash => unskipFile reg hash

/-- Apply a sequence of registry operations, first element first. -/
def applyOps (ops : List RegOp) (reg : Registry) : Registry :=
  match ops with
  | [] => reg
  | op :: t => applyOps t (applyOp op reg)

/-- Number of rows of the table holding a given hash. -/
def countKey (reg : Registry) (hash : String) : Nat :=
  (reg.filter (fun p => p.1 = hash)).length

/-! ## FolderWatcher stability test (src/engine/watcher.py lines 156-180) -/

/-- Per-path tracking state of the watcher: `_file_sizes` and
`_file_stable_since`. -/
structure WState where
  sizes : List (String × Nat)
  stableSince : List (String × Int)
  deriving Repr, DecidableEq

/-- `FolderWatcher._is_stable`: `obs = none` models `stat` raising `OSError`;
a zero size returns early without touching the tracking state; a size change
records the new size and resets the stability clock; an unchanged size is
stable once `now - since ≥ stabilitySeconds`. -/
def isStable (stabilitySeconds : Int) (st : WState) (path : String)
    (obs : Option Nat) (now : Int) : Bool × WState :=
  match obs with
  | none => (false, st)
  | some size =>
    if size = 0 then (false, st)
    else if alGet st.sizes path ≠ some size then
      (false, { sizes := alSet st.sizes path size,
                stableSince := alSet st.stableSince path now })
    else
      let since := (alGet st.stableSince path).getD now
      (decide (now - since ≥ stabilitySeconds), st)

/-- A sequence of scan cycles for one path: fold `isStable` over observed
(size, time) pairs and collect the verdicts. -/
def runScans (stabilitySeconds : Int) (st : WState) (path : String) :
    List (Option Nat × Int) → List Bool
  | [] => []
  | (obs, t) :: rest =>
    (isStable stabilitySeconds st path obs t).1
      :: runScans stabilitySeconds (isStable stabilitySeconds st path obs t).2
          path rest

/-! ## Claim C7 -/

/-- Claim C7: the classifier yields `DailyQuotaExhausted` exactly when the
message matches a rate-limit marker and, after lower-casing and stripping
spaces and underscores from the message, it contains one of the daily-limit
markers; and some rate-limited message containing `limit: 0` is classified
as `DailyQuotaExhausted` rather than plain `RateLimited`. -/
theorem c7_daily_quota_classification :
    (∀ msg, classify msg = ErrorKind.dailyQuotaExhausted ↔
      (isQuotaError msg = true ∧ ∃ m ∈ DAILY_QUOTA_MARKERS,
        containsSub (stripSpacesUnderscores (lowerStr msg)) m = true))
  ∧ (containsSub "429 quota exceeded, limit: 0".data "limit: 0".data = true
      ∧ isQuotaError "429 quota exceeded, limit: 0" = true
      ∧ classify "429 quota exceeded, limit: 0"
          = ErrorKind.dailyQuotaExhausted) := by
  constructor
  · intro msg
    have hdq : isDailyQuotaError msg = true
        ↔ ∃ m ∈ DAILY_QUOTA_MARKERS,
            containsSub (stripSpacesUnderscores (lowerStr msg)) m = true := by
      unfold isDailyQuotaError
      exact List.any_eq_true
    unfold classify
    split_ifs with hq hd hn
    · exact ⟨fun _ => ⟨hq, hdq.mp hd⟩, fun _ => rfl⟩
    · constructor
      · intro hcon; exact absurd hcon (by decide)
      · rintro ⟨_, hm⟩; exact absurd (hdq.mpr hm) hd
    · constructor
      · intro hcon; exact absurd hcon (by decide)
      · rintro ⟨hq2, _⟩; exact absurd hq2 hq
    · constructor
      · intro hcon; exact absurd hcon (by decide)
      · rintro ⟨hq2, _⟩; exact absurd hq2 hq
  · exact ⟨by decide, by decide, by decide⟩

/-- Witness for C7: a quota message containing the `daily` marker is
classified `DailyQuotaExhausted` through the characterization. -/
theorem c7_daily_quota_classification_witness :
    classify "429 daily quota reached" = ErrorKind.dailyQuotaExhausted :=
  (c7_daily_quota_classification.1 "429 daily quota reached").mpr
    ⟨by decide, "daily".data, by decide, by decide⟩

/-! ## Claim C6 -/

/-- Claim C6 counterexample: with a single key in cooldown until time 10
(not exhausted), `_get_available_key` at time 0 sleeps 11 seconds
(`wait_time + 1`) before handing the key out — acquisition does put the
caller to sleep, contradicting the claim that it never sleeps. -/
theorem c6_acquire_sleeps_counterexample :
    getAvailableKey ⟨1, 0, [], [(0, 10)], []⟩ 0
      = AcquireOutcome.got 0 11 ⟨1, 0, [], [], []⟩
  ∧ sleptOf (getAvailableKey ⟨1, 0, [], [(0, 10)], []⟩ 0) ≠ some 0 := by
  decide

theorem alGet_filter_eq_none {α : Type} [DecidableEq α] {β : Type}
    (l : List (α × β)) (keep : α × β → Bool) (k : α)
    (h : ∀ p ∈ l, p.1 = k → keep p = false) :
    alGet (l.filter keep) k = none := by
  induction l with
  | nil => rfl
  | cons p t ih =>
    have ih2 := ih (fun q hq => h q (List.mem_cons_of_mem p hq))
    cases hk : keep p with
    | false => simpa [List.filter_cons, hk] using ih2
    | true =>
      have hp1 : p.1 ≠ k := fun hc => by
        have := h p (List.mem_cons_self p t) hc
        rw [this] at hk
        cases hk
      simpa [List.filter_cons, hk, alGet, hp1] using ih2

/-- Claim C6 (amended): `GeminiClient._get_available_key` returns without
sleeping whenever some key below `numKeys` is not exhausted and has no
unexpired cooldown; it sleeps only when every non-exhausted key is in an
unexpired cooldown (as the counterexample shows it then does). -/
theorem c6_acquire_no_sleep_when_key_free (st : GState) (now : Int) (i : Nat)
    (h1 : i < st.numKeys) (h2 : st.exhausted.contains i = false)
    (h3 : ∀ p ∈ st.cooldowns, p.1 = i → p.2 ≤ now) :
    sleptOf (getAvailableKey st now) = some 0 := by
  have hga : alGet (clearExpired st now).cooldowns i = none := by
    unfold clearExpired
    exact alGet_filter_eq_none _ _ _
      (fun p hp hpk => by simp [h3 p hp hpk])
  have hmem : i ∈ availableKeys (clearExpired st now) := by
    unfold availableKeys
    rw [List.mem_filter, List.mem_range]
    have hnum : (clearExpired st now).numKeys = st.numKeys := rfl
    have hexh : (clearExpired st now).exhausted = st.exhausted := rfl
    rw [hnum, hexh]
    have h2m : i ∉ st.exhausted := by simpa using h2
    exact ⟨h1, by simp [h2m, hga]⟩
  have hlen : 0 < (availableKeys (clearExpired st now)).length :=
    List.length_pos.mpr (List.ne_nil_of_mem hmem)
  unfold getAvailableKey
  simp only [hlen, if_true, gt_iff_lt]
  rfl

/-- Witness for C6 (amended): with one fresh key the acquisition returns
immediately. -/
theorem c6_acquire_no_sleep_witness :
    sleptOf (getAvailableKey ⟨1, 0, [], [], []⟩ 0) = some 0 :=
  c6_acquire_no_sleep_when_key_free ⟨1, 0, [], [], []⟩ 0 0 (by decide)
    (by decide) (by simp)

/-! ## Claim C2 -/

/-- Claim C2 counterexample: a pool whose filtered set is non-empty but
saturated and a pool whose filtered set is empty both make
`get_next_available_key` return the same `None` — the two failure
conditions are not reported as distinguishable errors. -/
theorem c2_failures_indistinguishable_counterexample :
    getNextAvailableKey [⟨true, false, none, some 0, 5⟩] 0 = none
  ∧ getNextAvailableKey [⟨true, true, none, none, 0⟩] 0 = none
  ∧ availableFilter [⟨true, false, none, some 0, 5⟩] 0 = [0]
  ∧ remainingCapacity (APIKey.mk true false none (some 0) 5) 0 = 0
  ∧ availableFilter [⟨true, true, none, none, 0⟩] 0 = [] := by
  decide

/-- Claim C2 (amended): both failure conditions return the bare `None`:
when the filtered set is empty, and when every member of the filtered set
has remaining capacity 0, `get_next_available_key` returns `None` — the
caller cannot distinguish saturation from exhaustion from the returned
value (only the log text differs). -/
theorem c2_acquire_failures_return_none (pool : List APIKey) (now : Int) :
    (availableFilter pool now = [] → getNextAvailableKey pool now = none)
  ∧ ((∀ i ∈ availableFilter pool now,
        remainingCapacity (keyAt pool i) now = 0) →
      getNextAvailableKey pool now = none) := by
  constructor
  · intro h
    unfold getNextAvailableKey
    simp [h]
  · intro h
    unfold getNextAvailableKey
    by_cases he : (availableFilter pool now).isEmpty
    · simp [he]
    · have hcaps : (availableFilter pool now).filterMap (fun i =>
          if 0 < remainingCapacity (keyAt pool i) now
          then some (i, remainingCapacity (keyAt pool i) now) else none)
          = [] := by
        rw [List.filterMap_eq_nil_iff]
        intro a ha
        rw [h a ha]
        simp
      simp only [hcaps]
      simp

/-- Witness for C2 (amended): concrete saturated and exhausted pools both
get `None`. -/
theorem c2_acquire_failures_return_none_witness :
    getNextAvailableKey [⟨true, true, none, none, 0⟩] 0 = none
  ∧ getNextAvailableKey [⟨true, false, none, some 0, 5⟩] 0 = none :=
  ⟨(c2_acquire_failures_return_none [⟨true, true, none, none, 0⟩] 0).1
      (by decide),
   (c2_acquire_failures_return_none [⟨true, false, none, some 0, 5⟩] 0).2
      (by decide)⟩

/-! ## Claim C1 -/

/-- Claim C1 counterexample: six keys, every attempt rate-limited
(non-daily).  The `for attempt in range(max_retries)` loop advances the
attempt counter on `continue`, so after 5 rate-limited attempts the run
raises `failed after 5 attempts` although no key is exhausted and key 5
was never even placed in cooldown — rate-limited failures alone do
produce the bounded-attempts error while credentials remain available. -/
theorem c1_rate_limited_counts_counterexample :
    isFailedAfterAttempts (retryLoop ⟨6, 0, [], [], []⟩ 0
        (fun _ => OpOutcome.quotaErr "429 rate limit") 5) = true
  ∧ (resultFinalState (retryLoop ⟨6, 0, [], [], []⟩ 0
        (fun _ => OpOutcome.quotaErr "429 rate limit") 5)).map
      (fun st => st.exhausted.isEmpty && (alGet st.cooldowns 5).isNone)
      = some true := by
  decide

theorem retryLoopAux_all_quota (op : Nat → OpOutcome)
    (hq : ∀ k, ∃ msg, op k = OpOutcome.quotaErr msg) :
    ∀ (r : Nat) (st : GState) (now : Int) (attempt : Nat),
      isFailedAfterAttempts (retryLoopAux st now op attempt r) = true
      ∨ retryLoopAux st now op attempt r = DispatchResult.allKeysExhausted := by
  intro r
  induction r with
  | zero => intro st now attempt; left; rfl
  | succ r ih =>
    intro st now attempt
    obtain ⟨msg, hm⟩ := hq attempt
    unfold retryLoopAux
    cases hA : getAvailableKey st now with
    | allExhausted => right; rfl
    | got idx slept st1 =>
      rw [hm]
      exact ih _ _ _

/-- Claim C1 (amended): every executed iteration of the retry loop consumes
one of the `max_retries` attempts regardless of error class — a run in
which every attempt fails rate-limited ends in the `failed after N
attempts` error (or in the all-keys-exhausted abort); it never succeeds
and never retries beyond the bound, even while credentials remain. -/
theorem c1_rate_limited_consumes_attempts (st : GState) (now : Int)
    (op : Nat → OpOutcome) (maxRetries : Nat)
    (hq : ∀ k, ∃ msg, op k = OpOutcome.quotaErr msg) :
    isFailedAfterAttempts (retryLoop st now op maxRetries) = true
    ∨ retryLoop st now op maxRetries = DispatchResult.allKeysExhausted :=
  retryLoopAux_all_quota op hq maxRetries st now 0

/-- Witness for C1 (amended): the six-key all-rate-limited run. -/
theorem c1_rate_limited_consumes_attempts_witness :
    isFailedAfterAttempts (retryLoop ⟨6, 0, [], [], []⟩ 0
        (fun _ => OpOutcome.quotaErr "429 rate limit") 5) = true
    ∨ retryLoop ⟨6, 0, [], [], []⟩ 0
        (fun _ => OpOutcome.quotaErr "429 rate limit") 5
        = DispatchResult.allKeysExhausted :=
  c1_rate_limited_consumes_attempts ⟨6, 0, [], [], []⟩ 0
    (fun _ => OpOutcome.quotaErr "429 rate limit") 5
    (fun _ => ⟨"429 rate limit", rfl⟩)

/-! ## Claim C3 -/

/-- Modelled from the spec: the filtered set with the spec’s lock-expiry
boundary, where a lock is considered expired and ignored already when
`now ≥ lockedUntil` (the code instead requires `lockedUntil < now`). -/
def specAvailableFilter (pool : List APIKey) (now : Int) : List Nat :=
  (List.range pool.length).filter (fun i =>
    (keyAt pool i).isActive && !(keyAt pool i).isExhausted &&
      (match (keyAt pool i).lockedUntil with
       | none => true
       | some t => decide (t ≤ now)))

/-- The two-key pool of the C3 counterexample: key 0 locked until exactly
time 0 with full capacity, key 1 unlocked with capacity 1. -/
def c3pool : List APIKey :=
  [⟨true, false, some 0, none, 0⟩, ⟨true, false, none, some (-10), 4⟩]

/-- Claim C3 counterexample: at `now = 0`, key 0 carries a lock with
`lockedUntil = 0` — expired under the spec’s `now ≥ lockedUntil` rule —
and has full capacity 5, while key 1 is unlocked with capacity 1.  The
code treats key 0 as still locked (`locked_until < now` is strict) and
returns key 1, which does not have the greatest remaining capacity among
the credentials whose locks the spec considers expired. -/
theorem c3_greatest_capacity_counterexample :
    getNextAvailableKey c3pool 0 = some 1
  ∧ specAvailableFilter c3pool 0 = [0, 1]
  ∧ ¬ (∀ j ∈ specAvailableFilter c3pool 0,
        remainingCapacity (keyAt c3pool j) 0
          ≤ remainingCapacity (keyAt c3pool 1) 0) := by
  decide

theorem selectMaxBySnd_eq_none :
    ∀ {l : List (Nat × Nat)}, selectMaxBySnd l = none → l = [] := by
  intro l h
  cases l with
  | nil => rfl
  | cons a t =>
    exfalso
    unfold selectMaxBySnd at h
    split at h
    · cases h
    · split_ifs at h

theorem selectMaxBySnd_mem :
    ∀ {l : List (Nat × Nat)} {p : Nat × Nat},
      selectMaxBySnd l = some p → p ∈ l := by
  intro l
  induction l with
  | nil => intro p h; cases h
  | cons q t ih =>
    intro p h
    unfold selectMaxBySnd at h
    split at h
    · cases h
      exact List.mem_cons_self q t
    · rename_i r heq
      split_ifs at h
      · cases h
        exact List.mem_cons_of_mem q (ih heq)
      · cases h
        exact List.mem_cons_self q t

theorem selectMaxBySnd_le :
    ∀ {l : List (Nat × Nat)} {p : Nat × Nat},
      selectMaxBySnd l = some p → ∀ q ∈ l, q.2 ≤ p.2 := by
  intro l
  induction l with
  | nil => intro p _ q hq; cases hq
  | cons a t ih =>
    intro p h q hq
    unfold selectMaxBySnd at h
    split at h
    · rename_i heq
      cases h
      rcases List.mem_cons.mp hq with rfl | hqt
      · exact le_refl _
      · rw [selectMaxBySnd_eq_none heq] at hqt
        cases hqt
    · rename_i r heq
      rcases List.mem_cons.mp hq with rfl | hqt
      · split_ifs at h with hc
        · cases h
          exact le_of_lt hc
        · cases h
          exact le_refl _
      · have hr := ih heq q hqt
        split_ifs at h with hc
        · cases h
          exact hr
        · cases h
          exact le_trans hr (Nat.le_of_not_lt hc)

theorem selectMaxBySnd_first :
    ∀ {l : List (Nat × Nat)} {p : Nat × Nat},
      l.Pairwise (fun a b => a.1 < b.1) →
      selectMaxBySnd l = some p → ∀ q ∈ l, q.2 = p.2 → p.1 ≤ q.1 := by
  intro l
  induction l with
  | nil => intro p _ _ q hq; cases hq
  | cons a t ih =>
    intro p hpw h q hq hqe
    have hpwt : t.Pairwise (fun a b => a.1 < b.1) :=
      (List.pairwise_cons.mp hpw).2
    have hlt : ∀ b ∈ t, a.1 < b.1 := (List.pairwise_cons.mp hpw).1
    unfold selectMaxBySnd at h
    split at h
    · cases h
      rcases List.mem_cons.mp hq with rfl | hqt
      · exact le_refl _
      · exact le_of_lt (hlt q hqt)
    · rename_i r heq
      split_ifs at h with hc
      · cases h
        rcases List.mem_cons.mp hq with rfl | hqt
        · exact absurd hqe (Nat.ne_of_lt hc)
        · exact ih hpwt heq q hqt hqe
      · cases h
        rcases List.mem_cons.mp hq with rfl | hqt
        · exact le_refl _
        · exact le_of_lt (hlt q hqt)

theorem capEntry_eq (pool : List APIKey) (now : Int) (a : Nat) (x : Nat × Nat)
    (h : (if 0 < remainingCapacity (keyAt pool a) now
          then some (a, remainingCapacity (keyAt pool a) now) else none)
          = some x) :
    x.1 = a ∧ x.2 = remainingCapacity (keyAt pool a) now ∧ 0 < x.2 := by
  by_cases hra : 0 < remainingCapacity (keyAt pool a) now
  · rw [if_pos hra] at h
    cases h
    exact ⟨rfl, rfl, hra⟩
  · rw [if_neg hra] at h
    cases h

/-- Claim C3 (amended): whenever `get_next_available_key` returns a key, that
key is active, not exhausted, and its lock — if any — satisfies
`lockedUntil < now` (strictly: a lock with `lockedUntil = now` still blocks
the key); among the keys passing the code’s filter, the returned one has
the greatest remaining capacity, with ties broken by insertion order. -/
theorem c3_acquire_selects_greatest_capacity (pool : List APIKey) (now : Int)
    (i : Nat) (h : getNextAvailableKey pool now = some i) :
    i ∈ availableFilter pool now
    ∧ (keyAt pool i).isActive = true
    ∧ (keyAt pool i).isExhausted = false
    ∧ (∀ t, (keyAt pool i).lockedUntil = some t → t < now)
    ∧ (∀ j ∈ availableFilter pool now,
        remainingCapacity (keyAt pool j) now
          ≤ remainingCapacity (keyAt pool i) now)
    ∧ (∀ j ∈ availableFilter pool now,
        remainingCapacity (keyAt pool j) now
            = remainingCapacity (keyAt pool i) now → i ≤ j) := by
  unfold getNextAvailableKey at h
  by_cases he : (availableFilter pool now).isEmpty
  · rw [if_pos he] at h; cases h
  rw [if_neg he] at h
  set caps := (availableFilter pool now).filterMap (fun i =>
    if 0 < remainingCapacity (keyAt pool i) now
    then some (i, remainingCapacity (keyAt pool i) now) else none)
    with hcapsdef
  by_cases hc : caps.isEmpty
  · rw [if_pos hc] at h; cases h
  rw [if_neg hc] at h
  rcases Option.map_eq_some'.mp h with ⟨p, hsel, hp1⟩
  have hmemcaps : ∀ x ∈ caps,
      x.1 ∈ availableFilter pool now
      ∧ x.2 = remainingCapacity (keyAt pool x.1) now ∧ 0 < x.2 := by
    intro x hx
    rw [hcapsdef, List.mem_filterMap] at hx
    rcases hx with ⟨a, ha, hfa⟩
    rcases capEntry_eq pool now a x hfa with ⟨h1, h2, h3⟩
    rw [h1]
    exact ⟨h1 ▸ ha, h2, h3⟩
  have hincaps : ∀ j, j ∈ availableFilter pool now →
      0 < remainingCapacity (keyAt pool j) now →
      (j, remainingCapacity (keyAt pool j) now) ∈ caps := by
    intro j hj hr
    rw [hcapsdef, List.mem_filterMap]
    exact ⟨j, hj, by rw [if_pos hr]⟩
  rcases hmemcaps p (selectMaxBySnd_mem hsel) with ⟨hiAvail, hiCap, hiPos⟩
  subst hp1
  have hpred := (List.mem_filter.mp hiAvail).2
  simp only [Bool.and_eq_true] at hpred
  have hAct : (keyAt pool p.1).isActive = true := hpred.1.1
  have hExh : (keyAt pool p.1).isExhausted = false := by
    have := hpred.1.2
    simpa using this
  refine ⟨hiAvail, hAct, hExh, ?_, ?_, ?_⟩
  · intro t htl
    have hm := hpred.2
    rw [htl] at hm
    exact of_decide_eq_true hm
  · intro j hj
    by_cases hr : 0 < remainingCapacity (keyAt pool j) now
    · have hle := selectMaxBySnd_le hsel _ (hincaps j hj hr)
      rw [hiCap] at hle
      exact hle
    · omega
  · intro j hj hje
    have hpw : caps.Pairwise (fun a b => a.1 < b.1) := by
      rw [hcapsdef, List.pairwise_filterMap]
      have hav : (availableFilter pool now).Pairwise (· < ·) :=
        (List.pairwise_lt_range pool.length).filter _
      refine hav.imp_of_mem ?_
      intro a b _ _ hab x hx y hy
      have hxa := (capEntry_eq pool now a x (Option.mem_def.mp hx)).1
      have hyb := (capEntry_eq pool now b y (Option.mem_def.mp hy)).1
      rw [hxa, hyb]
      exact hab
    have hjr : 0 < remainingCapacity (keyAt pool j) now := by
      rw [hje, ← hiCap]
      exact hiPos
    exact selectMaxBySnd_first hpw hsel _ (hincaps j hj hjr)
      (by rw [hje]; exact hiCap.symm)

/-- Witness for C3 (amended): a single fresh key is returned and satisfies
the filter, capacity-maximality and tie-break properties. -/
theorem c3_acquire_selects_greatest_capacity_witness :
    0 ∈ availableFilter [⟨true, false, none, none, 0⟩] 0
    ∧ (keyAt [⟨true, false, none, none, 0⟩] 0).isActive = true
    ∧ (keyAt [⟨true, false, none, none, 0⟩] 0).isExhausted = false
    ∧ (∀ t, (keyAt [⟨true, false, none, none, 0⟩] 0).lockedUntil = some t →
        t < 0)
    ∧ (∀ j ∈ availableFilter [⟨true, false, none, none, 0⟩] 0,
        remainingCapacity (keyAt [⟨true, false, none, none, 0⟩] j) 0
          ≤ remainingCapacity (keyAt [⟨true, false, none, none, 0⟩] 0) 0)
    ∧ (∀ j ∈ availableFilter [⟨true, false, none, none, 0⟩] 0,
        remainingCapacity (keyAt [⟨true, false, none, none, 0⟩] j) 0
            = remainingCapacity (keyAt [⟨true, false, none, none, 0⟩] 0) 0 →
          0 ≤ j) :=
  c3_acquire_selects_greatest_capacity [⟨true, false, none, none, 0⟩] 0 0
    (by decide)

/-! ## Claim C4 -/

/-- Claim C4: `_handle_rate_limit` on a daily-quota error exhausts the key at
once (whatever the prior 429 count) and clears its cooldown and counter; on
other quota errors it increments the consecutive-429 counter, exhausts the
key when the counter reaches 3, and otherwise sets a 15-second cooldown
without touching the exhausted set; three consecutive non-daily calls
exhaust a fresh key; and a successful call resets the counter. -/
theorem c4_record_rate_limited :
    (∀ (st : GState) (idx : Nat) (err : String) (now : Int),
      isDailyQuotaError err = true →
      (handleRateLimit st idx err now).exhausted.contains idx = true
      ∧ alGet (handleRateLimit st idx err now).cooldowns idx = none
      ∧ alGet (handleRateLimit st idx err now).counts429 idx = none)
  ∧ (∀ (st : GState) (idx : Nat) (err : String) (now : Int),
      isDailyQuotaError err = false →
      alGet (handleRateLimit st idx err now).counts429 idx
        = some ((alGet st.counts429 idx).getD 0 + 1)
      ∧ (MAX_429_BEFORE_EXHAUST ≤ (alGet st.counts429 idx).getD 0 + 1 →
          (handleRateLimit st idx err now).exhausted.contains idx = true
          ∧ alGet (handleRateLimit st idx err now).cooldowns idx = none)
      ∧ ((alGet st.counts429 idx).getD 0 + 1 < MAX_429_BEFORE_EXHAUST →
          alGet (handleRateLimit st idx err now).cooldowns idx
            = some (now + RATE_LIMIT_WAIT_SECONDS)
          ∧ (handleRateLimit st idx err now).exhausted = st.exhausted))
  ∧ (∀ (st : GState) (idx : Nat) (err : String) (now1 now2 now3 : Int),
      isDailyQuotaError err = false →
      alGet st.counts429 idx = none →
      (handleRateLimit (handleRateLimit (handleRateLimit st idx err now1)
          idx err now2) idx err now3).exhausted.contains idx = true)
  ∧ (∀ (st : GState) (idx : Nat),
      alGet (clearCountOnSuccess st idx).counts429 idx = none) := by
  have hnotdaily : ∀ (st : GState) (idx : Nat) (err : String) (now : Int),
      isDailyQuotaError err = false →
      alGet (handleRateLimit st idx err now).counts429 idx
        = some ((alGet st.counts429 idx).getD 0 + 1)
      ∧ (MAX_429_BEFORE_EXHAUST ≤ (alGet st.counts429 idx).getD 0 + 1 →
          (handleRateLimit st idx err now).exhausted.contains idx = true
          ∧ alGet (handleRateLimit st idx err now).cooldowns idx = none)
      ∧ ((alGet st.counts429 idx).getD 0 + 1 < MAX_429_BEFORE_EXHAUST →
          alGet (handleRateLimit st idx err now).cooldowns idx
            = some (now + RATE_LIMIT_WAIT_SECONDS)
          ∧ (handleRateLimit st idx err now).exhausted = st.exhausted) := by
    intro st idx err now hd
    unfold handleRateLimit
    rw [if_neg (by simp [hd])]
    by_cases hc : MAX_429_BEFORE_EXHAUST ≤ (alGet st.counts429 idx).getD 0 + 1
    · rw [if_pos hc]
      exact ⟨alGet_alSet_self _ _ _,
             fun _ => ⟨by simp, alGet_alErase_self _ _⟩,
             fun hlt => absurd hc (by omega)⟩
    · rw [if_neg hc]
      exact ⟨alGet_alSet_self _ _ _,
             fun hle => absurd hle hc,
             fun _ => ⟨alGet_alSet_self _ _ _, rfl⟩⟩
  refine ⟨?_, hnotdaily, ?_, ?_⟩
  · intro st idx err now hd
    unfold handleRateLimit
    rw [if_pos hd]
    exact ⟨by simp, alGet_alErase_self _ _, alGet_alErase_self _ _⟩
  · intro st idx err now1 now2 now3 hd h0
    rcases hnotdaily st idx err now1 hd with ⟨hc1, -, -⟩
    rw [h0] at hc1
    rcases hnotdaily (handleRateLimit st idx err now1) idx err now2 hd with
      ⟨hc2, -, -⟩
    rw [hc1] at hc2
    rcases hnotdaily
        (handleRateLimit (handleRateLimit st idx err now1) idx err now2)
        idx err now3 hd with ⟨-, hex, -⟩
    rw [hc2] at hex
    exact (hex (by decide)).1
  · intro st idx
    exact alGet_alErase_self _ _

/-- Witness for C4: concrete daily and non-daily calls on a two-key pool. -/
theorem c4_record_rate_limited_witness :
    ((handleRateLimit ⟨2, 0, [], [], []⟩ 0 "daily quota" 0).exhausted.contains
        0 = true
      ∧ alGet (handleRateLimit ⟨2, 0, [], [], []⟩ 0 "daily quota" 0).cooldowns
          0 = none
      ∧ alGet (handleRateLimit ⟨2, 0, [], [], []⟩ 0 "daily quota" 0).counts429
          0 = none)
  ∧ alGet (handleRateLimit ⟨2, 0, [], [], []⟩ 0 "429 rate limit" 0).counts429 0
      = some ((alGet (⟨2, 0, [], [], []⟩ : GState).counts429 0).getD 0 + 1)
  ∧ (handleRateLimit (handleRateLimit (handleRateLimit ⟨2, 0, [], [], []⟩ 0
        "429 rate limit" 1) 0 "429 rate limit" 2) 0
        "429 rate limit" 3).exhausted.contains 0 = true
  ∧ alGet (clearCountOnSuccess ⟨2, 0, [], [(0, 9)], [(0, 2)]⟩ 0).counts429 0
      = none :=
  ⟨c4_record_rate_limited.1 ⟨2, 0, [], [], []⟩ 0 "daily quota" 0 (by decide),
   (c4_record_rate_limited.2.1 ⟨2, 0, [], [], []⟩ 0 "429 rate limit" 0
      (by decide)).1,
   c4_record_rate_limited.2.2.1 ⟨2, 0, [], [], []⟩ 0 "429 rate limit" 1 2 3
      (by decide) rfl,
   c4_record_rate_limited.2.2.2 ⟨2, 0, [], [(0, 9)], [(0, 2)]⟩ 0⟩

/-! ## Claim C5 -/

/-- Claim C5: `should_skip` returns no-skip with no entry; `already_processed`
on a successful entry; `skipped_by_user` on a skipped entry; `max_retries`
at `retry_count ≥ 5`; and with `last_retry_at` set and `retry_count > 0` it
reports backoff exactly while `now < last_retry_at + BackoffTable[min(rc-1,4)]`
minutes — with the checks in exactly that order (each case ignores all later
fields). -/
theorem c5_should_skip_cases :
    (MAX_RETRIES = 5 ∧ RETRY_BACKOFF_MINUTES = [1, 5, 15, 60, 240])
  ∧ (∀ (reg : Registry) (hash : String) (now : Int), alGet reg hash = none →
      shouldSkip reg hash now = (false, SkipReason.noSkip))
  ∧ (∀ (reg : Registry) (hash : String) (now : Int) (e : RegEntry),
      alGet reg hash = some e → e.success = true →
      shouldSkip reg hash now = (true, SkipReason.alreadyProcessed))
  ∧ (∀ (reg : Registry) (hash : String) (now : Int) (e : RegEntry),
      alGet reg hash = some e → e.success = false → e.skipped = true →
      shouldSkip reg hash now = (true, SkipReason.skippedByUser))
  ∧ (∀ (reg : Registry) (hash : String) (now : Int) (e : RegEntry),
      alGet reg hash = some e → e.success = false → e.skipped = false →
      MAX_RETRIES ≤ e.retryCount →
      shouldSkip reg hash now = (true, SkipReason.maxRetriesExceeded))
  ∧ (∀ (reg : Registry) (hash : String) (now : Int) (e : RegEntry) (t : Int),
      alGet reg hash = some e → e.success = false → e.skipped = false →
      e.retryCount < MAX_RETRIES → e.lastRetryAt = some t →
      0 < e.retryCount →
      shouldSkip reg hash now
        = if now < t + (backoffMinutes e.retryCount : Int) * 60
          then (true, SkipReason.backoff) else (false, SkipReason.noSkip))
  ∧ (∀ (reg : Registry) (hash : String) (now : Int) (e : RegEntry),
      alGet reg hash = some e → e.success = false → e.skipped = false →
      e.retryCount < MAX_RETRIES →
      (e.lastRetryAt = none ∨ e.retryCount = 0) →
      shouldSkip reg hash now = (false, SkipReason.noSkip)) := by
  refine ⟨⟨rfl, rfl⟩, ?_, ?_, ?_, ?_, ?_, ?_⟩
  · intro reg hash now hget
    simp only [shouldSkip, hget]
  · intro reg hash now e hget hs
    simp only [shouldSkip, hget]
    rw [if_pos hs]
  · intro reg hash now e hget hs hsk
    simp only [shouldSkip, hget]
    rw [if_neg (by simp [hs]), if_pos hsk]
  · intro reg hash now e hget hs hsk hrc
    simp only [shouldSkip, hget]
    rw [if_neg (by simp [hs]), if_neg (by simp [hsk]), if_pos hrc]
  · intro reg hash now e t hget hs hsk hrc hl hpos
    simp only [shouldSkip, hget]
    rw [if_neg (by simp [hs]), if_neg (by simp [hsk]), if_neg (by omega),
        if_pos ⟨by rw [hl]; rfl, hpos⟩]
    simp only [hl, Option.getD_some]
  · intro reg hash now e hget hs hsk hrc hcase
    simp only [shouldSkip, hget]
    rw [if_neg (by simp [hs]), if_neg (by simp [hsk]), if_neg (by omega)]
    rcases hcase with hl | hz
    · have hneg : ¬(e.lastRetryAt.isSome = true ∧ 0 < e.retryCount) := by
        rintro ⟨h1, -⟩
        rw [hl] at h1
        cases h1
      rw [if_neg hneg]
    · have hneg : ¬(e.lastRetryAt.isSome = true ∧ 0 < e.retryCount) := by
        rintro ⟨-, h2⟩
        omega
      rw [if_neg hneg]

/-- Witness for C5: each branch evaluated on a concrete one-entry registry. -/
theorem c5_should_skip_cases_witness :
    shouldSkip [] "h" 0 = (false, SkipReason.noSkip)
  ∧ shouldSkip [("h", ⟨"f", true, none, 0, none, false⟩)] "h" 0
      = (true, SkipReason.alreadyProcessed)
  ∧ shouldSkip [("h", ⟨"f", false, some "e", 1, some 0, true⟩)] "h" 0
      = (true, SkipReason.skippedByUser)
  ∧ shouldSkip [("h", ⟨"f", false, some "e", 5, some 0, false⟩)] "h" 0
      = (true, SkipReason.maxRetriesExceeded)
  ∧ shouldSkip [("h", ⟨"f", false, some "e", 1, some 0, false⟩)] "h" 30
      = (if (30 : Int) < 0 + (backoffMinutes 1 : Int) * 60
         then (true, SkipReason.backoff) else (false, SkipReason.noSkip))
  ∧ shouldSkip [("h", ⟨"f", false, some "e", 1, none, false⟩)] "h" 0
      = (false, SkipReason.noSkip) :=
  ⟨c5_should_skip_cases.2.1 [] "h" 0 rfl,
   c5_should_skip_cases.2.2.1 _ "h" 0 ⟨"f", true, none, 0, none, false⟩
      rfl rfl,
   c5_should_skip_cases.2.2.2.1 _ "h" 0 ⟨"f", false, some "e", 1, some 0, true⟩
      rfl rfl rfl,
   c5_should_skip_cases.2.2.2.2.1 _ "h" 0
      ⟨"f", false, some "e", 5, some 0, false⟩ rfl rfl rfl (by decide),
   c5_should_skip_cases.2.2.2.2.2.1 _ "h" 30
      ⟨"f", false, some "e", 1, some 0, false⟩ 0 rfl rfl rfl (by decide) rfl
      (by decide),
   c5_should_skip_cases.2.2.2.2.2.2 _ "h" 0
      ⟨"f", false, some "e", 1, none, false⟩ rfl rfl rfl (by decide)
      (Or.inl rfl)⟩

/-! ## Claim C9 -/

/-- A successful entry for the hash exists. -/
def SuccessEntry (reg : Registry) (hash : String) : Prop :=
  ∃ e, alGet reg hash = some e ∧ e.success = true

theorem shouldSkip_already_iff (reg : Registry) (hash : String) (now : Int) :
    shouldSkip reg hash now = (true, SkipReason.alreadyProcessed)
      ↔ SuccessEntry reg hash := by
  unfold shouldSkip SuccessEntry
  split
  · rename_i hget
    constructor
    · intro hcon
      exact absurd hcon (by decide)
    · rintro ⟨e, he, -⟩
      rw [hget] at he
      cases he
  · rename_i e hget
    by_cases hs : e.success = true
    · rw [if_pos hs]
      constructor
      · intro _
        exact ⟨e, hget, hs⟩
      · intro _
        rfl
    · rw [if_neg hs]
      constructor
      · intro hcon
        exfalso
        revert hcon
        split_ifs <;> (intro hcon; exact absurd hcon (by decide))
      · rintro ⟨e2, he2, hse2⟩
        rw [hget] at he2
        cases he2
        exact absurd hse2 hs

theorem successEntry_applyOp (op : RegOp) (reg : Registry) (hash : String)
    (h : SuccessEntry reg hash) : SuccessEntry (applyOp op reg) hash := by
  rcases h with ⟨e, hget, hse⟩
  cases op with
  | failure h2 fn err now =>
    simp only [applyOp]
    unfold recordFailure
    split
    · rename_i heq
      by_cases hk : h2 = hash
      · subst hk
        rw [hget] at heq
        cases heq
      · exact ⟨e, by rw [alGet_alSet_ne _ _ _ _ hk]; exact hget, hse⟩
    · rename_i e2 heq
      by_cases hk : h2 = hash
      · subst hk
        rw [hget] at heq
        cases heq
        exact ⟨_, alGet_alSet_self _ _ _, hse⟩
      · exact ⟨e, by rw [alGet_alSet_ne _ _ _ _ hk]; exact hget, hse⟩
  | skip h2 =>
    simp only [applyOp]
    unfold skipFile
    split
    · exact ⟨e, hget, hse⟩
    · rename_i e2 heq
      by_cases hk : h2 = hash
      · subst hk
        rw [hget] at heq
        cases heq
        exact ⟨_, alGet_alSet_self _ _ _, hse⟩
      · exact ⟨e, by rw [alGet_alSet_ne _ _ _ _ hk]; exact hget, hse⟩
  | unskip h2 =>
    simp only [applyOp]
    unfold unskipFile
    split
    · exact ⟨e, hget, hse⟩
    · rename_i e2 heq
      by_cases hk : h2 = hash
      · subst hk
        rw [hget] at heq
        cases heq
        exact ⟨_, alGet_alSet_self _ _ _, hse⟩
      · exact ⟨e, by rw [alGet_alSet_ne _ _ _ _ hk]; exact hget, hse⟩

theorem successEntry_applyOps (ops : List RegOp) (reg : Registry)
    (hash : String) (h : SuccessEntry reg hash) :
    SuccessEntry (applyOps ops reg) hash := by
  induction ops generalizing reg with
  | nil => exact h
  | cons op t ih => exact ih (applyOp op reg) (successEntry_applyOp op reg hash h)

/-- Claim C9: `should_skip` is monotonic for success — once it answers
`already_processed` for a hash, no sequence of `record_failure`,
`skip_file` or `unskip_file` calls (on any hashes) makes it answer no-skip
again: none of those operations clears the entry's success flag. -/
theorem c9_already_processed_monotonic (reg : Registry) (hash : String)
    (now now2 : Int) (ops : List RegOp)
    (h : shouldSkip reg hash now = (true, SkipReason.alreadyProcessed)) :
    shouldSkip (applyOps ops reg) hash now2
      = (true, SkipReason.alreadyProcessed) :=
  (shouldSkip_already_iff _ _ _).mpr
    (successEntry_applyOps ops reg hash ((shouldSkip_already_iff _ _ _).mp h))

/-- Witness for C9: a successful entry survives a failure record, a skip and
an unskip. -/
theorem c9_already_processed_monotonic_witness :
    shouldSkip (applyOps
        [RegOp.failure "h" "f" "boom" 5, RegOp.skip "h", RegOp.unskip "h"]
        [("h", ⟨"f", true, none, 0, none, false⟩)]) "h" 99
      = (true, SkipReason.alreadyProcessed) :=
  c9_already_processed_monotonic
    [("h", ⟨"f", true, none, 0, none, false⟩)] "h" 0 99
    [RegOp.failure "h" "f" "boom" 5, RegOp.skip "h", RegOp.unskip "h"]
    (by decide)

/-! ## Claim C10 -/

theorem countKey_eq_zero_of_not_mem (reg : Registry) (hash : String)
    (h : ∀ p ∈ reg, p.1 ≠ hash) : countKey reg hash = 0 := by
  unfold countKey
  rw [List.length_eq_zero, List.filter_eq_nil_iff]
  intro p hp
  simp [h p hp]

theorem countKey_alSet_of_nodup (reg : Registry) (hash : String) (v : RegEntry)
    (h : (reg.map (·.1)).Nodup) : countKey (alSet reg hash v) hash = 1 := by
  induction reg with
  | nil => simp [alSet, countKey, List.filter]
  | cons p t ih =>
    have hnm : p.1 ∉ t.map (·.1) := (List.nodup_cons.mp h).1
    have hnd : (t.map (·.1)).Nodup := (List.nodup_cons.mp h).2
    by_cases hp : p.1 = hash
    · unfold alSet
      rw [if_pos hp]
      unfold countKey
      rw [List.filter_cons]
      have ht0 : countKey t hash = 0 :=
        countKey_eq_zero_of_not_mem t hash (fun q hq hqe =>
          hnm (by rw [hp, ← hqe]; exact List.mem_map_of_mem (·.1) hq))
      unfold countKey at ht0
      simp [ht0]
    · unfold alSet
      rw [if_neg hp]
      unfold countKey
      rw [List.filter_cons]
      have := ih hnd
      unfold countKey at this
      simp [hp, this]

theorem mem_keys_alSet (t : Registry) (k : String) (v : RegEntry) (a : String)
    (ha : a ∈ (alSet t k v).map (·.1)) : a = k ∨ a ∈ t.map (·.1) := by
  induction t with
  | nil =>
    simp [alSet] at ha
    exact Or.inl ha
  | cons p u ih =>
    by_cases hp : p.1 = k
    · unfold alSet at ha
      rw [if_pos hp] at ha
      rcases List.mem_map.mp ha with ⟨q, hq, hqa⟩
      rcases List.mem_cons.mp hq with rfl | hqu
      · exact Or.inl hqa.symm
      · exact Or.inr (hqa ▸ List.mem_map_of_mem (·.1) (List.mem_cons_of_mem p hqu))
    · unfold alSet at ha
      rw [if_neg hp] at ha
      rcases List.mem_map.mp ha with ⟨q, hq, hqa⟩
      rcases List.mem_cons.mp hq with rfl | hqu
      · exact Or.inr (hqa ▸ List.mem_map_of_mem (·.1) (List.mem_cons_self p u))
      · rcases ih (hqa ▸ List.mem_map_of_mem (·.1) hqu) with h1 | h2
        · exact Or.inl h1
        · exact Or.inr (List.mem_cons_of_mem _ h2)

theorem nodup_keys_alSet (reg : Registry) (k : String) (v : RegEntry)
    (h : (reg.map (·.1)).Nodup) : ((alSet reg k v).map (·.1)).Nodup := by
  induction reg with
  | nil => simp [alSet]
  | cons p t ih =>
    have hnm : p.1 ∉ t.map (·.1) := (List.nodup_cons.mp h).1
    have hnd : (t.map (·.1)).Nodup := (List.nodup_cons.mp h).2
    by_cases hp : p.1 = k
    · unfold alSet
      rw [if_pos hp]
      rw [List.map_cons, List.nodup_cons]
      exact ⟨hp ▸ hnm, hnd⟩
    · unfold alSet
      rw [if_neg hp]
      rw [List.map_cons, List.nodup_cons]
      refine ⟨?_, ih hnd⟩
      intro hcon
      rcases mem_keys_alSet t k v p.1 hcon with h1 | h2
      · exact hp h1
      · exact hnm h2

/-- Claim C10: recording success twice for the same hash leaves exactly one
row for that hash, with `success = true` and `error` cleared; and because
`INSERT OR REPLACE` writes a whole fresh row, a single `record_success`
already resets `retry_count`, `last_retry_at` and `skipped` to their
defaults whatever they were before. -/
theorem c10_record_success_idempotent (reg : Registry)
    (hash fn1 fn2 : String) (h : (reg.map (·.1)).Nodup) :
    countKey (recordSuccess (recordSuccess reg hash fn1) hash fn2) hash = 1
    ∧ alGet (recordSuccess (recordSuccess reg hash fn1) hash fn2) hash
        = some { filename := fn2, success := true, error := none,
                 retryCount := 0, lastRetryAt := none, skipped := false }
    ∧ alGet (recordSuccess reg hash fn1) hash
        = some { filename := fn1, success := true, error := none,
                 retryCount := 0, lastRetryAt := none, skipped := false } := by
  have hnodup2 : ((recordSuccess reg hash fn1).map (·.1)).Nodup := by
    unfold recordSuccess
    exact nodup_keys_alSet reg hash _ h
  exact ⟨countKey_alSet_of_nodup _ hash _ hnodup2,
         alGet_alSet_self _ _ _, alGet_alSet_self _ _ _⟩

/-- Witness for C10: a registry holding a failed, skipped entry for the hash
collapses to the single fresh success row. -/
theorem c10_record_success_idempotent_witness :
    countKey (recordSuccess (recordSuccess
        [("h", ⟨"old", false, some "e", 3, some 5, true⟩)] "h" "a") "h" "b")
        "h" = 1
    ∧ alGet (recordSuccess (recordSuccess
        [("h", ⟨"old", false, some "e", 3, some 5, true⟩)] "h" "a") "h" "b")
        "h"
        = some { filename := "b", success := true, error := none,
                 retryCount := 0, lastRetryAt := none, skipped := false }
    ∧ alGet (recordSuccess
        [("h", ⟨"old", false, some "e", 3, some 5, true⟩)] "h" "a") "h"
        = some { filename := "a", success := true, error := none,
                 retryCount := 0, lastRetryAt := none, skipped := false } :=
  c10_record_success_idempotent
    [("h", ⟨"old", false, some "e", 3, some 5, true⟩)] "h" "a" "b" (by decide)

/-! ## Claim C8 -/

/-- Claim C8 counterexample: with `stability_seconds = 10`, a file observed
at sizes 5, 0, 5 on scans at times 0, 10, 20 — its size changing on every
observed scan — is reported stable on the third scan: the zero-size early
return leaves the tracking state untouched, so the third observation matches
the size tracked since time 0. -/
theorem c8_stability_counterexample :
    runScans 10 ⟨[], []⟩ "f" [(some 5, 0), (some 0, 10), (some 5, 20)]
      = [false, false, true]
  ∧ (5 : Nat) ≠ 0 ∧ (0 : Nat) ≠ 5 := by
  decide

/-- Unfolding equation of `isStable` on a successful `stat`. -/
theorem isStable_some (S : Int) (st : WState) (path : String) (size : Nat)
    (now : Int) :
    isStable S st path (some size) now
      = if size = 0 then (false, st)
        else if alGet st.sizes path ≠ some size then
          (false, ⟨alSet st.sizes path size, alSet st.stableSince path now⟩)
        else (decide (now - (alGet st.stableSince path).getD now ≥ S), st) :=
  rfl

theorem runScans_sizes_change (S : Int) (path : String) :
    ∀ (obs : List (Nat × Int)) (st : WState),
      (∀ p ∈ obs, p.1 ≠ 0) →
      List.Chain' (fun a b => a ≠ b) (obs.map (·.1)) →
      (∀ s0 t0 rest0, obs = (s0, t0) :: rest0 →
        alGet st.sizes path ≠ some s0) →
      runScans S st path (obs.map (fun p => (some p.1, p.2)))
        = obs.map (fun _ => false) := by
  intro obs
  induction obs with
  | nil => intro st _ _ _; rfl
  | cons q rest ih =>
    intro st h0 hch hhd
    rw [List.map_cons] at hch
    have hq0 : q.1 ≠ 0 := h0 q (List.mem_cons_self q rest)
    have hne : alGet st.sizes path ≠ some q.1 := hhd q.1 q.2 rest rfl
    have hstep : isStable S st path (some q.1) q.2
        = (false, ⟨alSet st.sizes path q.1, alSet st.stableSince path q.2⟩) := by
      rw [isStable_some, if_neg hq0, if_pos hne]
    rw [List.map_cons, List.map_cons]
    simp only [runScans]
    rw [hstep]
    have hrest := ih ⟨alSet st.sizes path q.1, alSet st.stableSince path q.2⟩
      (fun p hp => h0 p (List.mem_cons_of_mem q hp))
      hch.tail
      (by
        intro s0 t0 rest0 heq
        subst heq
        rw [List.map_cons] at hch
        have hqr : q.1 ≠ (s0, t0).1 := (List.chain'_cons.mp hch).1
        rw [alGet_alSet_self]
        intro hcon
        injection hcon with h2
        exact hqr h2)
    rw [hrest]

/-- Claim C8 (amended): a zero-size observation is never stable (and leaves
tracking untouched); a nonzero observation differing from the tracked size
resets the stability clock to `now` and is not stable; an unchanged nonzero
observation is stable exactly when `now - sizeStableSince ≥ S`; and a file
whose nonzero sizes differ on every consecutive scan never becomes stable —
the all-scans-change guarantee needs nonzero sizes, since a zero-size scan
bypasses the reset (see the counterexample). -/
theorem c8_stability_test :
    (∀ (S : Int) (st : WState) (path : String) (now : Int),
      (isStable S st path (some 0) now).1 = false
      ∧ (isStable S st path (some 0) now).2 = st)
  ∧ (∀ (S : Int) (st : WState) (path : String) (size : Nat) (now : Int),
      size ≠ 0 → alGet st.sizes path ≠ some size →
      (isStable S st path (some size) now).1 = false
      ∧ alGet (isStable S st path (some size) now).2.stableSince path
          = some now
      ∧ alGet (isStable S st path (some size) now).2.sizes path = some size)
  ∧ (∀ (S : Int) (st : WState) (path : String) (size : Nat) (now t : Int),
      size ≠ 0 → alGet st.sizes path = some size →
      alGet st.stableSince path = some t →
      ((isStable S st path (some size) now).1 = true ↔ S ≤ now - t))
  ∧ (∀ (S : Int) (st : WState) (path : String) (obs : List (Nat × Int)),
      (∀ p ∈ obs, p.1 ≠ 0) →
      List.Chain' (fun a b => a ≠ b) (obs.map (·.1)) →
      (∀ s0 t0 rest0, obs = (s0, t0) :: rest0 →
        alGet st.sizes path ≠ some s0) →
      runScans S st path (obs.map (fun p => (some p.1, p.2)))
        = obs.map (fun _ => false)) := by
  refine ⟨?_, ?_, ?_, ?_⟩
  · intro S st path now
    exact ⟨rfl, rfl⟩
  · intro S st path size now hsz hne
    rw [isStable_some, if_neg hsz, if_pos hne]
    exact ⟨rfl, alGet_alSet_self _ _ _, alGet_alSet_self _ _ _⟩
  · intro S st path size now t hsz hsame hsince
    rw [isStable_some, if_neg hsz,
        if_neg (by rw [hsame]; exact not_not_intro rfl)]
    rw [hsince]
    simp only [Option.getD_some, decide_eq_true_eq, ge_iff_le]
  · intro S st path obs
    exact runScans_sizes_change S path obs st

/-- Witness for C8 (amended): the four parts at concrete inputs — a zero
observation, a changed size, an unchanged size past the threshold, and a
run of three pairwise-different nonzero sizes. -/
theorem c8_stability_test_witness :
    ((isStable 10 ⟨[], []⟩ "f" (some 0) 3).1 = false
      ∧ (isStable 10 ⟨[], []⟩ "f" (some 0) 3).2 = ⟨[], []⟩)
  ∧ ((isStable 10 ⟨[("f", 4)], [("f", 0)]⟩ "f" (some 7) 5).1 = false
      ∧ alGet (isStable 10 ⟨[("f", 4)], [("f", 0)]⟩ "f"
          (some 7) 5).2.stableSince "f" = some 5
      ∧ alGet (isStable 10 ⟨[("f", 4)], [("f", 0)]⟩ "f"
          (some 7) 5).2.sizes "f" = some 7)
  ∧ ((isStable 10 ⟨[("f", 4)], [("f", 0)]⟩ "f" (some 4) 12).1 = true
        ↔ (10 : Int) ≤ 12 - 0)
  ∧ runScans 10 ⟨[], []⟩ "f"
        ([((5 : Nat), (0 : Int)), (6, 10), (7, 20)].map
          (fun p => (some p.1, p.2)))
      = [((5 : Nat), (0 : Int)), (6, 10), (7, 20)].map (fun _ => false) :=
  ⟨c8_stability_test.1 10 ⟨[], []⟩ "f" 3,
   c8_stability_test.2.1 10 ⟨[("f", 4)], [("f", 0)]⟩ "f" 7 5 (by decide)
      (by decide),
   c8_stability_test.2.2.1 10 ⟨[("f", 4)], [("f", 0)]⟩ "f" 4 12 0 (by decide)
      (by decide) (by decide),
   c8_stability_test.2.2.2 10 ⟨[], []⟩ "f" [(5, 0), (6, 10), (7, 20)]
      (by decide)
      (by simp)
      (by
        intro s0 t0 rest0 heq
        cases heq
        decide)⟩

end VoiceToNotes
